import Mathlib

/-!
# Verification of pymcwrapper's event-dispatch and supervision engine

A shallow embedding of the core of `pymcwrapper` (files
`mc_server_wrapper.py`, `job.py`, `event.py`, `observer.py`), together with
theorems about the embedded operations.

Conventions of the embedding:
* Python strings become `String`; Python `int` becomes `Int` (Python's `%`
  on a positive modulus agrees with `Int.emod`, and `%` by zero raises
  `ZeroDivisionError`, modelled by an `Except` error).
* Side effects (printing, lock operations, stream writes, thread joins,
  spawning) become elements of an `Action` trace returned alongside the new
  state; the order of the list is the order the statements execute.
* A Python exception is a value carrying its `args` tuple (modelled as a
  `List String`, which is all the dispatcher's logging code inspects).
* Joining a thread blocks until the thread has terminated, so the post-state
  of a completed `join` records the thread as no longer alive.
-/

namespace Pymcwrapper

/-! ## Python string primitives

`str.rstrip()` and `str.split(maxsplit=1)` with the default (whitespace)
separator, as used by `MCServerWrapper._handle_input_event`. The whitespace
class is the ASCII part of Python's: space, tab, newline, carriage return,
vertical tab, form feed. -/

def isPySpace (c : Char) : Bool :=
  c = ' ' || c = '\t' || c = '\n' || c = '\r' || c = '\x0b' || c = '\x0c'

/-- Python `s.rstrip()` (no argument): drop trailing whitespace. -/
def pyRstrip (s : String) : String :=
  ⟨(s.data.reverse.dropWhile isPySpace).reverse⟩

/-- Python `s.split(maxsplit=1)` with the default separator: leading
whitespace is discarded; the first maximal run of non-whitespace characters
is the first token; the whitespace run after it is consumed; whatever
follows is the (at most one) remainder element, omitted when empty. -/
def pySplitMax1 (s : String) : List String :=
  let cs := s.data.dropWhile isPySpace
  if cs.isEmpty then []
  else
    let tok := cs.takeWhile (fun c => !isPySpace c)
    let rest := (cs.dropWhile (fun c => !isPySpace c)).dropWhile isPySpace
    if rest.isEmpty then [⟨tok⟩] else [⟨tok⟩, ⟨rest⟩]

/-! ## Console command router (`MCServerWrapper._handle_input_event`) -/

/-- The command a matching first token routes to; `'send'` and `'>'` both map
to the `send` action, mirroring `MCServerWrapper._cmd_map`. -/
inductive CmdTag where
  | start
  | restart
  | echo
  | send
  | load
  | run
deriving DecidableEq

/-- `MCServerWrapper._cmd_map` (source lines 44-51): first token of a console
line to the parse method it dispatches to. -/
def cmd_map : List (String × CmdTag) :=
  [("start", CmdTag.start),
   ("restart", CmdTag.restart),
   ("echo", CmdTag.echo),
   ("send", CmdTag.send),
   (">", CmdTag.send),
   ("load", CmdTag.load),
   ("run", CmdTag.run)]

/-- What `_handle_input_event` does with an `InputEvent`: nothing (blank
line), invoke a parse method with an argline, or forward the whole line to
`self.send` as a raw command. -/
inductive RouterAction where
  | noop
  | cmd (c : CmdTag) (argline : String)
  | raw (line : String)
deriving DecidableEq

/-- `MCServerWrapper._handle_input_event` (source lines 141-153):
`line = event.to_input.rstrip()`, `tokens = line.split(maxsplit=1)`;
empty token list returns; a first token found in `_cmd_map` invokes the
method with `tokens[1] if len(tokens) > 1 else ''`; otherwise
`self.send(line)`. -/
def handle_input_event (text : String) : RouterAction :=
  let line := pyRstrip text
  match pySplitMax1 line with
  | [] => RouterAction.noop
  | t :: rest =>
    match cmd_map.lookup t with
    | some c => RouterAction.cmd c (rest.headD "")
    | none => RouterAction.raw line

/-! ## Python exceptions -/

/-- A raised Python exception, reduced to what the embedded code inspects:
its `args` tuple. `args` entries are modelled as strings (the dispatcher
only ever prints them). -/
structure PyExc where
  args : List String
deriving DecidableEq

/-- The `IndexError` raised by `()[0]`-style access on an empty tuple. -/
def indexErrorExc : PyExc := ⟨["tuple index out of range"]⟩

/-- The `ZeroDivisionError` raised by Python's `%` with zero modulus. -/
def zeroDivisionExc : PyExc := ⟨["integer division or modulo by zero"]⟩

/-! ## The command-sequence job (`job.py`) -/

/-- The mutable state of a `CommandSequenceJob` after `__init__` has
finished (source lines 37-50). `delay` is only ever handed to the timer
wait, never computed with, so it is carried as an exact rational. -/
structure JobState where
  title : String
  delay : ℚ
  length : Nat
  index : Int
  commandTexts : List String
  stopped : Bool
deriving DecidableEq

/-- Source line 46: `['\n'.join(commands) + '\n' for commands in groups]`. -/
def commandTexts (groups : List (List String)) : List String :=
  groups.map (fun commands => String.intercalate "\n" commands ++ "\n")

/-- `CommandSequenceJob.__init__` (source lines 37-50). Line 45 computes
`self._index = index % self._length`; Python's `%` raises
`ZeroDivisionError` when `self._length == 0`, so construction fails there
for an empty `groups` list. -/
def commandSequenceJobInit (title : String) (delay : ℚ) (index : Int)
    (groups : List (List String)) : Except PyExc JobState :=
  if groups.length = 0 then
    Except.error zeroDivisionExc
  else
    Except.ok
      { title := title
        delay := delay
        length := groups.length
        index := index % (groups.length : Int)
        commandTexts := commandTexts groups
        stopped := false }

/-- One observable effect of the job's timer loop. -/
inductive JobAction where
  | putEvent (title : String) (text : String)
  | wait (delay : ℚ)
deriving DecidableEq

/-- One iteration of `CommandSequenceJob._loop_interval` (source lines
52-56): if the stop event is set, the loop exits; otherwise it puts a
`CommandSequenceJobEvent(title, command_texts[index])` on the queue,
advances `index = (index + 1) % length`, and waits up to `delay` seconds. -/
def jobLoopStep (s : JobState) : JobState × List JobAction :=
  if s.stopped then (s, [])
  else
    ({ s with index := (s.index + 1) % (s.length : Int) },
     [JobAction.putEvent s.title (s.commandTexts.getD s.index.toNat ""),
      JobAction.wait s.delay])

/-- The trace of the first `k` iterations of `_loop_interval`. -/
def jobRun (s : JobState) : Nat → List JobAction
  | 0 => []
  | k + 1 =>
    if s.stopped then []
    else (jobLoopStep s).2 ++ jobRun (jobLoopStep s).1 k

/-- The state after `n` iterations of `_loop_interval`. -/
def jobIter (s : JobState) : Nat → JobState
  | 0 => s
  | n + 1 => jobIter (jobLoopStep s).1 n

/-! ## The wrapper / process supervisor (`mc_server_wrapper.py`) -/

/-- The liveness of an owned thread, as `Thread.isAlive()` reports it. -/
structure ThreadState where
  alive : Bool
deriving DecidableEq

/-- The supervisor-relevant mutable fields of `MCServerWrapper`: the child
process handle (`_server_process`, a `Popen` handle modelled by a numeric
id), the output-relay thread (`_server_output_thread`), and the job and
observer lists (each entry modelled by a numeric id). Both optional fields
start as `None` (source lines 58-62). -/
structure MCServerWrapperState where
  serverProcess : Option Nat
  serverOutputThread : Option ThreadState
  jobs : List Nat
  observers : List Nat
deriving DecidableEq

/-- One observable effect of a supervisor method, in execution order. -/
inductive Action where
  | print (msg : String)
  | printError (msg : String)
  | acquireLock
  | releaseLock
  | writeStdin (text : String)
  | flushStdin
  | spawnProcess (pid : Nat)
  | startOutputThread
  | waitProcess
  | joinOutputThread
  | joinInputThread
  | stopJob (j : Nat)
  | joinJob (j : Nat)
  | stopObserver (o : Nat)
  | joinObserver (o : Nat)
deriving DecidableEq

/-- `MCServerWrapper._is_server_running` (source lines 127-130): if
`self._server_output_thread` is truthy (a `Thread` object is always truthy,
`None` is falsy), return `self._server_output_thread.isAlive()`; otherwise
return `False`. -/
def is_server_running (s : MCServerWrapperState) : Bool :=
  match s.serverOutputThread with
  | some t => t.alive
  | none => false

/-- `MCServerWrapper._write_server` (source lines 132-139): when the server
is running, acquire `_server_input_lock`, write `text` to the child's stdin,
flush it, release the lock; otherwise print the error and touch nothing. -/
def write_server (s : MCServerWrapperState) (text : String) :
    MCServerWrapperState × List Action :=
  if is_server_running s then
    (s, [Action.acquireLock, Action.writeStdin text, Action.flushStdin,
      Action.releaseLock])
  else
    (s, [Action.printError "Server is not running!"])

/-- `MCServerWrapper.pipe` (source lines 269-270). -/
def pipe (s : MCServerWrapperState) (text : String) :
    MCServerWrapperState × List Action :=
  write_server s text

/-- `MCServerWrapper.send` (source lines 272-273): `self.pipe(text + '\n')`. -/
def send (s : MCServerWrapperState) (text : String) :
    MCServerWrapperState × List Action :=
  pipe s (text ++ "\n")

/-- `MCServerWrapper.start_server` (source lines 235-242): when already
running, print the error and change nothing; otherwise spawn the child
process (`Popen`, yielding the fresh handle `newPid`), create the
output-relay thread and start it (so it is alive). -/
def start_server (s : MCServerWrapperState) (newPid : Nat) :
    MCServerWrapperState × List Action :=
  if is_server_running s then
    (s, [Action.printError "Server is already running!"])
  else
    ({ s with serverProcess := some newPid, serverOutputThread := some ⟨true⟩ },
     [Action.print "Starting server...", Action.spawnProcess newPid,
      Action.startOutputThread])

/-- `MCServerWrapper.stop_server` (source lines 248-258): when running,
send the literal `stop` command, wait for the child to exit, join the
output-relay thread (after the completed join that thread is no longer
alive); otherwise print the error. The process handle field is not
cleared by the source. -/
def stop_server (s : MCServerWrapperState) :
    MCServerWrapperState × List Action :=
  if is_server_running s then
    let sendResult := send s "stop"
    ({ sendResult.1 with serverOutputThread := some ⟨false⟩ },
     [Action.print "Stopping server..."] ++ sendResult.2 ++
      [Action.print "Waiting for server to stop...", Action.waitProcess,
       Action.print "Cleaning up server...", Action.joinOutputThread,
       Action.print "Server has stopped."])
  else
    (s, [Action.printError "Server is not running!"])

/-- `MCServerWrapper._handle_exit_event` (source lines 162-188), statement
by statement: print, print and join the input thread; if the server is
running, `stop_server`; print the job header when `self._jobs` is nonempty,
then `stop()` and `join()` each job in order; likewise for observers; and
return `True` so the dispatch loop finishes. -/
def handle_exit_event (s : MCServerWrapperState) :
    MCServerWrapperState × Bool × List Action :=
  let acts1 := [Action.print "Stopping wrapper...",
    Action.print "Cleaning up input...", Action.joinInputThread]
  let afterStop :=
    if is_server_running s then
      let stopResult := stop_server s
      (stopResult.1, acts1 ++ stopResult.2)
    else (s, acts1)
  let acts3 := afterStop.2 ++
    (if s.jobs = [] then []
     else [Action.print ("Cleaning up " ++ toString s.jobs.length ++ " job(s)...")])
  let acts4 := acts3 ++ s.jobs.flatMap (fun j => [Action.stopJob j, Action.joinJob j])
  let acts5 := acts4 ++
    (if s.observers = [] then []
     else [Action.print
       ("Cleaning up " ++ toString s.observers.length ++ " observer(s)...")])
  let acts6 := acts5 ++
    s.observers.flatMap (fun o => [Action.stopObserver o, Action.joinObserver o])
  (afterStop.1, true, acts6)

/-! ## The dispatch loop's exception isolation (`_loop_event_queue`) -/

/-- The `try`/`except` around one handler invocation in
`MCServerWrapper._loop_event_queue` (source lines 100-110). The handler's
outcome is either its return value (`true` breaks the loop) or a raised
exception. On an exception the code prints an error header, the formatted
traceback lines (`tbLines`, produced by the `traceback` module), and then
`e.args[0]` — an expression that itself raises `IndexError` when `e.args`
is empty; that secondary exception is not caught, so it propagates out of
the loop and the dispatch thread dies. The result is the actions printed
so far paired with `Except.ok b` (the loop breaks iff `b`) or
`Except.error` (the loop is halted by an escaping exception). -/
def loop_event_queue_step (tbLines : List String)
    (handlerOutcome : Except PyExc Bool) : List Action × Except PyExc Bool :=
  match handlerOutcome with
  | Except.ok b => ([], Except.ok b)
  | Except.error e =>
    let logs := Action.printError "Event resulted in an error:" ::
      tbLines.map (fun l => Action.printError l)
    match e.args with
    | [] => (logs, Except.error indexErrorExc)
    | a :: _ => (logs ++ [Action.printError a], Except.ok false)

/-! ## Concrete states used by witnesses and counterexamples -/

/-- The supervisor fields right after `MCServerWrapper.__init__` (no child
process, no output thread) with no jobs and no observers configured. -/
def initialWrapperState : MCServerWrapperState := ⟨none, none, [], []⟩

/-- The state right after a successful `start_server` spawned child 1. -/
def startedState : MCServerWrapperState := (start_server initialWrapperState 1).1

/-- `startedState` after the output-relay thread has died on its own (for
example because the child closed its stdout), with no lifecycle transition:
the process handle is untouched and no `stop_server` has run. -/
def threadDiedState : MCServerWrapperState :=
  { startedState with serverOutputThread := some ⟨false⟩ }

/-! ## Theorems -/

/-- **C3**: constructing a `CommandSequenceJob` with an empty list of
groups fails at creation — `index % self._length` raises
`ZeroDivisionError` — for every title, delay, and starting index. -/
theorem commandSequenceJob_empty_groups_fails_at_creation
    (title : String) (delay : ℚ) (index : Int) :
    commandSequenceJobInit title delay index [] = Except.error zeroDivisionExc := rfl

/-- **C4**: `_write_server` with no running child performs no stream
operation and leaves the state unchanged, reporting the not-running error;
with a running child it acquires the input lock, writes the text verbatim,
flushes, and releases the lock, in that order. -/
theorem write_server_not_running_no_io_running_locked_write
    (s : MCServerWrapperState) (text : String) :
    (is_server_running s = false →
      write_server s text = (s, [Action.printError "Server is not running!"])) ∧
    (is_server_running s = true →
      write_server s text =
        (s, [Action.acquireLock, Action.writeStdin text, Action.flushStdin,
          Action.releaseLock])) := by
  constructor <;> intro h <;> simp [write_server, h]

/-- **C4 witness**: the two branches at concrete states and text `"hi\n"`. -/
theorem write_server_witness :
    write_server initialWrapperState "hi\n" =
      (initialWrapperState, [Action.printError "Server is not running!"]) ∧
    write_server startedState "hi\n" =
      (startedState, [Action.acquireLock, Action.writeStdin "hi\n",
        Action.flushStdin, Action.releaseLock]) :=
  ⟨(write_server_not_running_no_io_running_locked_write initialWrapperState "hi\n").1 rfl,
   (write_server_not_running_no_io_running_locked_write startedState "hi\n").2 rfl⟩

/-- **C8**: `start_server` on a supervisor that is already running leaves
every field of the state unchanged — same process handle, same output
thread, nothing spawned — and only reports the already-running error. -/
theorem start_server_already_running_unchanged
    (s : MCServerWrapperState) (newPid : Nat)
    (h : is_server_running s = true) :
    start_server s newPid = (s, [Action.printError "Server is already running!"]) := by
  simp [start_server, h]

/-- **C8 witness**: starting again on the started state changes nothing. -/
theorem start_server_already_running_witness :
    start_server startedState 2 =
      (startedState, [Action.printError "Server is already running!"]) :=
  start_server_already_running_unchanged startedState 2 rfl

/-- **C1 counterexample**: `_is_server_running` is computed from the
liveness of the output-relay thread, not from the supervisor's lifecycle
transitions. `threadDiedState` lies strictly between a successful
`start_server` and the completion of any matching `stop_server` — it has
the same process handle as `startedState` and differs only in the relay
thread's liveness, and `stop_server` from it takes the error branch, so no
stop can complete — yet `_is_server_running` already reports `false`
there, while the claim requires `true`. -/
theorem is_server_running_thread_liveness_counterexample :
    is_server_running startedState = true ∧
    is_server_running threadDiedState = false ∧
    threadDiedState.serverProcess = startedState.serverProcess ∧
    stop_server threadDiedState =
      (threadDiedState, [Action.printError "Server is not running!"]) :=
  ⟨rfl, rfl, rfl, rfl⟩

/-- **C1 amended**: `_is_server_running` is inferred from thread liveness:
it returns `true` exactly when the output-relay thread exists and is alive.
It is `true` immediately after a successful `start_server` and `false`
after `stop_server` completes, but it also becomes `false` as soon as the
relay thread dies, even though no stop transition has run. -/
theorem is_server_running_is_thread_liveness :
    (∀ s : MCServerWrapperState,
      is_server_running s = true ↔
        ∃ t : ThreadState, s.serverOutputThread = some t ∧ t.alive = true) ∧
    is_server_running (start_server initialWrapperState 1).1 = true ∧
    is_server_running (stop_server (start_server initialWrapperState 1).1).1 = false ∧
    is_server_running threadDiedState = false := by
  refine ⟨fun s => ?_, rfl, rfl, rfl⟩
  cases h : s.serverOutputThread with
  | none => simp [is_server_running, h]
  | some t => simp [is_server_running, h]

/-- **C2** (code bug): when a handler raises an exception whose `args`
tuple is empty, the dispatcher's own logging code `e.args[0]` raises
`IndexError`; that exception is not caught, so the dispatch loop halts
instead of continuing, contradicting the claim that one failing event
never halts dispatch. (With a nonempty `args` the loop does continue.) -/
theorem dispatch_empty_args_exception_halts_loop :
    loop_event_queue_step [] (Except.error ⟨[]⟩) =
      ([Action.printError "Event resulted in an error:"],
       Except.error indexErrorExc) ∧
    loop_event_queue_step [] (Except.error ⟨["boom"]⟩) =
      ([Action.printError "Event resulted in an error:",
        Action.printError "boom"], Except.ok false) :=
  ⟨rfl, rfl⟩

/-- **C10**: an `InputEvent` whose text is empty or consists only of
whitespace is silently discarded: the handler returns without invoking any
command action and without forwarding anything to the child process. -/
theorem handle_input_event_blank_line_noop (text : String)
    (h : text.data.all isPySpace = true) :
    handle_input_event text = RouterAction.noop := by
  have hall : ∀ c ∈ text.data, isPySpace c = true := by
    simpa [List.all_eq_true] using h
  have h1 : text.data.reverse.dropWhile isPySpace = [] := by
    rw [List.dropWhile_eq_nil_iff]
    intro x hx
    exact hall x (List.mem_reverse.mp hx)
  simp [handle_input_event, pyRstrip, pySplitMax1, h1]

/-- **C10 witness**: the blank console line `"  \t "` is discarded. -/
theorem handle_input_event_blank_line_witness :
    handle_input_event "  \t " = RouterAction.noop :=
  handle_input_event_blank_line_noop "  \t " (by decide)

/-- `_cmd_map` lookup, written out token by token. -/
lemma cmd_map_lookup_eq (t : String) :
    cmd_map.lookup t =
      (if t = "start" then some CmdTag.start
       else if t = "restart" then some CmdTag.restart
       else if t = "echo" then some CmdTag.echo
       else if t = "send" then some CmdTag.send
       else if t = ">" then some CmdTag.send
       else if t = "load" then some CmdTag.load
       else if t = "run" then some CmdTag.run
       else none) := by
  simp only [cmd_map, List.lookup]
  repeat' split <;> simp_all

/-- **C9**: `_handle_input_event` splits the (right-trimmed) line at the
first whitespace boundary; a first token among `start`, `restart`, `echo`,
`send`, `>`, `load`, `run` dispatches the matching parse method with the
remainder of the line as its argline (the empty string when there is no
remainder), and any other first token forwards the entire line to `send`
as a raw command. -/
theorem handle_input_event_routes_first_token
    (text t : String) (rest : List String)
    (h : pySplitMax1 (pyRstrip text) = t :: rest) :
    handle_input_event text =
      (if t = "start" then RouterAction.cmd CmdTag.start (rest.headD "")
       else if t = "restart" then RouterAction.cmd CmdTag.restart (rest.headD "")
       else if t = "echo" then RouterAction.cmd CmdTag.echo (rest.headD "")
       else if t = "send" then RouterAction.cmd CmdTag.send (rest.headD "")
       else if t = ">" then RouterAction.cmd CmdTag.send (rest.headD "")
       else if t = "load" then RouterAction.cmd CmdTag.load (rest.headD "")
       else if t = "run" then RouterAction.cmd CmdTag.run (rest.headD "")
       else RouterAction.raw (pyRstrip text)) := by
  simp only [handle_input_event, h, cmd_map_lookup_eq]
  split_ifs <;> simp

/-- **C9 witness**: `"send say hello"` routes to the `send` parse method
with argline `"say hello"`, and the unknown command line `"foo bar"` is
forwarded verbatim as a raw command. -/
theorem handle_input_event_routes_witness :
    handle_input_event "send say hello" = RouterAction.cmd CmdTag.send "say hello" ∧
    handle_input_event "foo bar" = RouterAction.raw "foo bar" := by
  constructor
  · rw [handle_input_event_routes_first_token "send say hello" "send" ["say hello"] rfl]
    decide
  · rw [handle_input_event_routes_first_token "foo bar" "foo" ["bar"] rfl]
    decide

/-- **C5**: handling an `Exit` event performs, strictly in this order,
each step's trace complete before the next begins: join the console input
reader thread; if the supervisor is running, run the full `stop_server`
sequence; stop then join every job, in order; stop then join every
observer, in order; and return `true`, the dispatch-termination signal —
whatever state the wrapper is in, hence regardless of which producer
originated the `Exit`. -/
theorem handle_exit_event_ordered_teardown (s : MCServerWrapperState) :
    handle_exit_event s =
      ((if is_server_running s then (stop_server s).1 else s), true,
        [Action.print "Stopping wrapper...", Action.print "Cleaning up input...",
          Action.joinInputThread]
        ++ (if is_server_running s then (stop_server s).2 else [])
        ++ ((if s.jobs = [] then []
             else [Action.print
               ("Cleaning up " ++ toString s.jobs.length ++ " job(s)...")])
            ++ s.jobs.flatMap (fun j => [Action.stopJob j, Action.joinJob j]))
        ++ ((if s.observers = [] then []
             else [Action.print
               ("Cleaning up " ++ toString s.observers.length ++ " observer(s)...")])
            ++ s.observers.flatMap
              (fun o => [Action.stopObserver o, Action.joinObserver o]))) := by
  by_cases hr : is_server_running s <;>
    simp [handle_exit_event, hr, List.append_assoc]

/-- `%` absorbs an inner `%` in its left summand. -/
lemma int_emod_add_left_emod (a b n : Int) : (a % n + b) % n = (a + b) % n := by
  conv_lhs => rw [Int.add_emod]
  rw [Int.emod_emod_of_dvd a dvd_rfl, ← Int.add_emod]

/-- Peeling the first element off a `flatMap` over `List.range`. -/
lemma range_succ_flatMap {α : Type} (f : Nat → List α) (k : Nat) :
    (List.range (k + 1)).flatMap f =
      f 0 ++ (List.range k).flatMap (fun t => f (t + 1)) := by
  rw [List.range_succ_eq_map, List.flatMap_cons, List.flatMap_map]

/-- Closed form for the timer loop's trace while the stop event stays
clear: the `t`-th iteration fires `command_texts[(index + t) % length]`
and then waits `delay`. -/
lemma jobRun_closed_form (k : Nat) :
    ∀ s : JobState, s.stopped = false → 0 < s.length →
      0 ≤ s.index → s.index < (s.length : Int) →
      jobRun s k = (List.range k).flatMap (fun t =>
        [JobAction.putEvent s.title
          (s.commandTexts.getD (((s.index + (t : Int)) % (s.length : Int)).toNat) ""),
         JobAction.wait s.delay]) := by
  induction k with
  | zero =>
    intro s _ _ _ _
    simp [jobRun]
  | succ k ih =>
    intro s hs hl h0 hlt
    have hne : ((s.length : Int)) ≠ 0 := by
      simpa using Nat.pos_iff_ne_zero.mp hl
    have hpos : (0 : Int) < (s.length : Int) := by exact_mod_cast hl
    have hrun : jobRun s (k + 1) = (jobLoopStep s).2 ++ jobRun (jobLoopStep s).1 k := by
      simp [jobRun, hs]
    have hstep : jobLoopStep s =
        ({ s with index := (s.index + 1) % (s.length : Int) },
         [JobAction.putEvent s.title (s.commandTexts.getD s.index.toNat ""),
          JobAction.wait s.delay]) := by
      simp [jobLoopStep, hs]
    have ih' := ih { s with index := (s.index + 1) % (s.length : Int) }
      (by simp [hs]) (by simpa using hl)
      (Int.emod_nonneg _ hne) (Int.emod_lt_of_pos _ hpos)
    simp only [hrun, hstep, ih']
    rw [range_succ_flatMap]
    congr 1
    · rw [Int.natCast_zero, Int.add_zero, Int.emod_eq_of_lt h0 hlt]
    · apply congrArg
      funext t
      have harith : ((s.index + 1) % (s.length : Int) + (t : Int)) % (s.length : Int)
          = (s.index + ((t : Int) + 1)) % (s.length : Int) := by
        rw [int_emod_add_left_emod]
        congr 1
        ring
      push_cast
      rw [harith]

/-- **C6**: for a job successfully constructed from `groups` (so at least
one group) with configured starting index `i0`, every iteration of the
timer loop while not stopped first pushes a `CommandSequenceJobEvent`
carrying the current group's commands joined with `'\n'` plus one trailing
`'\n'` (the `commandTexts` entry), then advances the index modulo the
group count, then waits up to `delay`: the `t`-th firing carries
`commandTexts[(i0 + t) % groupCount]`, so successive firings walk the
groups in cyclic order. -/
theorem commandSequenceJob_fires_groups_cyclically
    (title : String) (delay : ℚ) (i0 : Int) (groups : List (List String))
    (s0 : JobState)
    (h : commandSequenceJobInit title delay i0 groups = Except.ok s0)
    (k : Nat) :
    jobRun s0 k = (List.range k).flatMap (fun t =>
      [JobAction.putEvent title
        ((commandTexts groups).getD
          (((i0 + (t : Int)) % (groups.length : Int)).toNat) ""),
       JobAction.wait delay]) := by
  by_cases hg : groups.length = 0
  · simp [commandSequenceJobInit, hg] at h
  · have hl : 0 < groups.length := Nat.pos_of_ne_zero hg
    have hne : ((groups.length : Int)) ≠ 0 := by simpa using hg
    have hpos : (0 : Int) < (groups.length : Int) := by exact_mod_cast hl
    have hs0 : s0 = ⟨title, delay, groups.length,
        i0 % (groups.length : Int), commandTexts groups, false⟩ := by
      simp [commandSequenceJobInit, hg] at h
      exact h.symm
    subst hs0
    rw [jobRun_closed_form k _ rfl hl (Int.emod_nonneg _ hne)
      (Int.emod_lt_of_pos _ hpos)]
    apply congrArg
    funext t
    rw [int_emod_add_left_emod]

/-- The example job of the spec's scenario: title `ping`, delay 1 second,
starting index 0, groups `[["say hi"], ["say bye"]]`, right after
construction. -/
def pingState : JobState :=
  { title := "ping", delay := 1, length := 2, index := 0,
    commandTexts := ["say hi\n", "say bye\n"], stopped := false }

/-- **C6 witness**: the `ping` job's first three firings alternate
`say hi\n`, `say bye\n`, `say hi\n`, each followed by the 1-second wait. -/
theorem commandSequenceJob_fires_witness :
    jobRun pingState 3 =
      [JobAction.putEvent "ping" "say hi\n", JobAction.wait 1,
       JobAction.putEvent "ping" "say bye\n", JobAction.wait 1,
       JobAction.putEvent "ping" "say hi\n", JobAction.wait 1] := by
  rw [commandSequenceJob_fires_groups_cyclically "ping" 1 0
    [["say hi"], ["say bye"]] pingState rfl 3]
  rfl

/-- The timer loop's state step keeps the index inside `[0, length)` and
every other field unchanged. -/
lemma jobIter_invariant (n : Nat) :
    ∀ s : JobState, 0 < s.length →
      0 ≤ s.index → s.index < (s.length : Int) →
      (jobIter s n).length = s.length ∧
      0 ≤ (jobIter s n).index ∧
      (jobIter s n).index < ((jobIter s n).length : Int) := by
  induction n with
  | zero =>
    intro s _ h0 hlt
    exact ⟨rfl, h0, hlt⟩
  | succ n ih =>
    intro s hl h0 hlt
    have hne : ((s.length : Int)) ≠ 0 := by
      simpa using Nat.pos_iff_ne_zero.mp hl
    have hpos : (0 : Int) < (s.length : Int) := by exact_mod_cast hl
    have hrw : jobIter s (n + 1) = jobIter (jobLoopStep s).1 n := rfl
    by_cases hs : s.stopped
    · have hstep : (jobLoopStep s).1 = s := by simp [jobLoopStep, hs]
      rw [hrw, hstep]
      exact ih s hl h0 hlt
    · have hstep : (jobLoopStep s).1 =
          { s with index := (s.index + 1) % (s.length : Int) } := by
        simp [jobLoopStep, hs]
      rw [hrw, hstep]
      exact ih _ (by simpa using hl)
        (Int.emod_nonneg _ hne) (Int.emod_lt_of_pos _ hpos)

/-- **C7**: for a job successfully constructed from `groups` (N ≥ 1 groups)
with any configured starting index, the current index lies in
`[0, groupCount)` immediately after construction and after every
advancement the timer loop performs. -/
theorem commandSequenceJob_index_in_range
    (title : String) (delay : ℚ) (i0 : Int) (groups : List (List String))
    (s0 : JobState)
    (h : commandSequenceJobInit title delay i0 groups = Except.ok s0)
    (n : Nat) :
    0 ≤ (jobIter s0 n).index ∧ (jobIter s0 n).index < (groups.length : Int) := by
  by_cases hg : groups.length = 0
  · simp [commandSequenceJobInit, hg] at h
  · have hl : 0 < groups.length := Nat.pos_of_ne_zero hg
    have hne : ((groups.length : Int)) ≠ 0 := by simpa using hg
    have hpos : (0 : Int) < (groups.length : Int) := by exact_mod_cast hl
    have hs0 : s0 = ⟨title, delay, groups.length,
        i0 % (groups.length : Int), commandTexts groups, false⟩ := by
      simp [commandSequenceJobInit, hg] at h
      exact h.symm
    have hinv := jobIter_invariant n s0
      (by rw [hs0]; simpa using hl)
      (by rw [hs0]; exact Int.emod_nonneg _ hne)
      (by rw [hs0]; exact Int.emod_lt_of_pos _ hpos)
    have hlen : (jobIter s0 n).length = groups.length := by
      rw [hinv.1, hs0]
    refine ⟨hinv.2.1, ?_⟩
    rw [← hlen]
    exact hinv.2.2

/-- **C7 witness**: the `ping` job's index after five loop iterations is
inside `[0, 2)`. -/
theorem commandSequenceJob_index_in_range_witness :
    0 ≤ (jobIter pingState 5).index ∧
    (jobIter pingState 5).index < (([["say hi"], ["say bye"]] :
      List (List String)).length : Int) :=
  commandSequenceJob_index_in_range "ping" 1 0 [["say hi"], ["say bye"]]
    pingState rfl 5

end Pymcwrapper
